import Mathlib

/-!
Verification development for the spatial domain-decomposition and dynamic
load-balancing subsystem of a particle simulation package.

The concrete C++ implementation files of DomainDecomposition, Communicator,
LoadBalancer and ParticleData are not part of the source tree available here
(only their unit tests are), so the data model and the operations are
modelled from the natural-language specification, in exact rational
arithmetic.  Every definition carries a doc comment tracing it to the
relevant part of the specification.
-/

namespace HoomdLB

/-- Modelled from the spec: the rank grid, a 3-tuple of positive integers
giving the number of sub-domains along each axis; total ranks is nx*ny*nz. -/
structure RankGrid where
  nx : ℕ
  ny : ℕ
  nz : ℕ
deriving DecidableEq

/-- Modelled from the spec: total number of ranks of the rank grid. -/
def RankGrid.size (g : RankGrid) : ℕ := g.nx * g.ny * g.nz

/-- Modelled from the spec: the bijective index function mapping grid
coordinates to a linear rank id, with the x coordinate varying fastest. -/
def RankGrid.linearIndex (g : RankGrid) (i j k : ℕ) : ℕ :=
  (k * g.ny + j) * g.nx + i

/-- A triple of exact rational coordinates, used both for box-fractional
positions and for Cartesian positions. -/
structure Vec3 where
  x : ℚ
  y : ℚ
  z : ℚ
deriving DecidableEq

/-- Modelled from the spec: getCumulativeFractions returns the interior
cut fractions of one axis with the boundary fractions 0 and 1 inclusive
at the ends. -/
def cumulativeFractions (cuts : List ℚ) : List ℚ := 0 :: cuts ++ [1]

/-- The i-th boundary fraction of an axis (0-indexed into the cumulative
fraction sequence), with out-of-range default 0. -/
def bnd (cuts : List ℚ) (i : ℕ) : ℚ := (cumulativeFractions cuts).getD i 0

/-- Modelled from the spec: per-axis sub-domain lookup — the last index i
such that the i-th cumulative fraction is at most the coordinate, clamped
to the valid sub-domain range to absorb rounding at exact boundaries. -/
def slabIndex (cuts : List ℚ) (x : ℚ) : ℕ :=
  min cuts.length ((cumulativeFractions cuts).countP (fun b => decide (b ≤ x)) - 1)

/-- Modelled from the spec: the minimum-gap invariant of a cut-fraction
sequence — consecutive cumulative fractions (boundaries 0 and 1 included)
are separated by at least the floor g. -/
def gapOK (g : ℚ) (cuts : List ℚ) : Prop :=
  (cumulativeFractions cuts).Chain' (fun a b => a + g ≤ b)

instance (g : ℚ) (cuts : List ℚ) : Decidable (gapOK g cuts) :=
  inferInstanceAs (Decidable (List.Chain' _ _))

/-- Modelled from the spec: DomainDecomposition — the rank grid together
with the three per-axis interior cut-fraction sequences, the entire mutable
state of the decomposition. -/
structure DomainDecomposition where
  grid : RankGrid
  cutsX : List ℚ
  cutsY : List ℚ
  cutsZ : List ℚ
deriving DecidableEq

/-- Modelled from the spec: the cut sequences have length one less than the
grid size on their axis. -/
def DomainDecomposition.sizesOK (d : DomainDecomposition) : Prop :=
  d.cutsX.length + 1 = d.grid.nx ∧ d.cutsY.length + 1 = d.grid.ny ∧
    d.cutsZ.length + 1 = d.grid.nz

instance (d : DomainDecomposition) : Decidable d.sizesOK :=
  inferInstanceAs (Decidable (_ ∧ _ ∧ _))

/-- Modelled from the spec: ownerOf — locate the sub-domain index on each
axis independently via the cut-fraction sequence and combine the three
per-axis indices into a linear rank via the grid index function. -/
def DomainDecomposition.ownerOf (d : DomainDecomposition) (f : Vec3) : ℕ :=
  d.grid.linearIndex (slabIndex d.cutsX f.x) (slabIndex d.cutsY f.y)
    (slabIndex d.cutsZ f.z)

/-- Modelled from the spec: periodic wrap of a fractional coordinate into
the interval from 0 inclusive to 1 exclusive. -/
def wrapFrac (x : ℚ) : ℚ := x - ⌊x⌋

/-- Componentwise periodic wrap of a fractional position. -/
def wrapFrac3 (f : Vec3) : Vec3 := ⟨wrapFrac f.x, wrapFrac f.y, wrapFrac f.z⟩

/-- Modelled from the spec: a particle record, a stable tag plus a position
(here kept in box-fractional coordinates, the skew-invariant frame in which
all ownership decisions are made). -/
structure Particle where
  tag : ℕ
  pos : Vec3
deriving DecidableEq

/-- Modelled from the spec: Communicator.migrateParticles — every particle
is first fractionally wrapped, its owner is recomputed with ownerOf, and the
per-rank stores are rebuilt so that each rank holds exactly the particles it
owns; the model takes the global view of the distributed exchange, in which
rank r receives every particle whose recomputed owner is r. -/
def migrateParticles (d : DomainDecomposition) (stores : List (List Particle)) :
    List (List Particle) :=
  let all := stores.flatten
  (List.range d.grid.size).map
    (fun r => all.filter (fun p => decide (d.ownerOf (wrapFrac3 p.pos) = r)))

/-- Modelled from the spec: the LoadBalancer configuration — balancing
tolerance, per-call iteration cap, the minimum slab-width floor derived from
the required ghost layer width, and the per-axis enable flags. -/
structure LBParams where
  tol : ℚ
  maxIter : ℕ
  minGap : ℚ
  enableX : Bool
  enableY : Bool
  enableZ : Bool
deriving DecidableEq

/-- Insertion of a value into an ascending list, keeping it ascending. -/
def insertAsc (x : ℚ) : List ℚ → List ℚ
  | [] => [x]
  | y :: ys => if x ≤ y then x :: y :: ys else y :: insertAsc x ys

/-- Ascending insertion sort of the measured axis coordinates. -/
def sortAsc (l : List ℚ) : List ℚ := l.foldr insertAsc []

/-- Modelled from the spec: the Solving phase targets — the k-th interior
cut is moved to the coordinate that puts k*N/n of the N measured particle
coordinates below it (the count-midpoint of the axis, an order statistic of
the measured coordinates, chosen by particle count and not by geometric
distance). -/
def targets (n : ℕ) (ps : List ℚ) : List ℚ :=
  (List.range (n - 1)).map (fun k => (sortAsc ps).getD ((k + 1) * ps.length / n) 1)

/-- Modelled from the spec: candidate cuts that would violate the
minimum-gap constraint are clamped to the nearest feasible value rather than
rejected; the candidates are processed from low to high, each clamped into
the interval that keeps the gap to the previous committed cut and leaves
room for the remaining cuts below the upper boundary. -/
def clampSeq (g : ℚ) : ℚ → List ℚ → List ℚ
  | _, [] => []
  | prev, c :: cs =>
      let c' := max (prev + g) (min c (1 - ((cs.length : ℚ) + 1) * g))
      c' :: clampSeq g c' cs

/-- One Solving adjustment of an axis with n sub-domains: the count-midpoint
targets, clamped to respect the minimum-gap floor. -/
def adjust (g : ℚ) (n : ℕ) (ps : List ℚ) : List ℚ := clampSeq g 0 (targets n ps)

/-- Modelled from the spec: the Measuring phase — per sub-domain slab along
the axis, the global count of particle coordinates inside that slab range. -/
def slabCounts (cuts : List ℚ) (ps : List ℚ) : List ℕ :=
  (List.range (cuts.length + 1)).map
    (fun i => ps.countP (fun x => decide (slabIndex cuts x = i)))

/-- The largest per-slab count of an axis, the quantity the tolerance test
compares against the mean. -/
def maxCount (cuts : List ℚ) (ps : List ℚ) : ℕ :=
  (slabCounts cuts ps).foldr max 0

/-- Modelled from the spec: the convergence test — the maximum per-slab
count is within the configured tolerance ratio of the mean count N/n. -/
def withinTol (tol : ℚ) (cuts : List ℚ) (ps : List ℚ) : Prop :=
  ((cuts.length : ℚ) + 1) * (maxCount cuts ps) ≤ tol * ps.length

instance (tol : ℚ) (cuts ps : List ℚ) : Decidable (withinTol tol cuts ps) :=
  inferInstanceAs (Decidable (_ ≤ _))

/-- Modelled from the spec: the bounded Solving iteration — repeat until
either the counts are within tolerance of the mean (converged) or the
iteration cap is reached, in which case the best cut sequence achieved so
far is returned together with a non-converged flag; non-convergence is not
an error and discards no progress. -/
def solveLoop (tol g : ℚ) (ps : List ℚ) :
    ℕ → List ℚ → List ℚ → ℕ → List ℚ × Bool
  | 0, _, best, _ => (best, false)
  | i + 1, cur, best, bestM =>
      if withinTol tol cur ps then (cur, true)
      else
        let nxt := adjust g (cur.length + 1) ps
        let m := maxCount nxt ps
        if m < bestM then solveLoop tol g ps i nxt nxt m
        else solveLoop tol g ps i nxt best bestM

/-- Modelled from the spec: Measuring plus Solving for one axis — starting
from the current cut sequence, with the current cuts as the initial best. -/
def solveAxis (tol g : ℚ) (maxIter : ℕ) (ps : List ℚ) (old : List ℚ) :
    List ℚ × Bool :=
  solveLoop tol g ps maxIter old old (maxCount old ps)

/-- The global simulation state the balancing protocol acts on: the
decomposition and the per-rank particle stores. -/
structure World where
  decomp : DomainDecomposition
  stores : List (List Particle)
deriving DecidableEq

/-- The wrapped coordinates of every particle along one axis, the input of
the Measuring phase (the cross-rank reduction of the spec makes the counts
global, so the model reads the global coordinate multiset directly). -/
def axisPs (sel : Vec3 → ℚ) (stores : List (List Particle)) : List ℚ :=
  stores.flatten.map (fun p => wrapFrac (sel p.pos))

/-- Modelled from the spec: LoadBalancer.update — for each enabled axis,
measure and solve from the same measurement pass (a disabled axis is skipped
entirely and its cut sequence left untouched), commit the solved cut
sequences to the decomposition, then trigger migrateParticles so ownership
follows the new cuts.  The function is total: a non-converged solve commits
its best cuts and raises no error. -/
def updateLB (p : LBParams) (w : World) : World :=
  let d := w.decomp
  let newX := if p.enableX
    then (solveAxis p.tol p.minGap p.maxIter (axisPs Vec3.x w.stores) d.cutsX).1
    else d.cutsX
  let newY := if p.enableY
    then (solveAxis p.tol p.minGap p.maxIter (axisPs Vec3.y w.stores) d.cutsY).1
    else d.cutsY
  let newZ := if p.enableZ
    then (solveAxis p.tol p.minGap p.maxIter (axisPs Vec3.z w.stores) d.cutsZ).1
    else d.cutsZ
  let d2 : DomainDecomposition := ⟨d.grid, newX, newY, newZ⟩
  ⟨d2, migrateParticles d2 w.stores⟩

/-- Modelled from the spec: BoxGeometry — a triclinic simulation box with
lower corner, edge lengths and tilt factors. -/
structure BoxDim where
  loX : ℚ
  loY : ℚ
  loZ : ℚ
  LX : ℚ
  LY : ℚ
  LZ : ℚ
  xy : ℚ
  xz : ℚ
  yz : ℚ
deriving DecidableEq

/-- Modelled from the spec: BoxGeometry fractional-to-Cartesian conversion
for a triclinic box, the lattice-vector combination lo + f.x*a1 + f.y*a2 +
f.z*a3 with a1 = (LX,0,0), a2 = (xy*LY, LY, 0), a3 = (xz*LZ, yz*LZ, LZ). -/
def makeCoordinates (b : BoxDim) (f : Vec3) : Vec3 :=
  ⟨b.loX + f.x * b.LX + b.xy * f.y * b.LY + b.xz * f.z * b.LZ,
   b.loY + f.y * b.LY + b.yz * f.z * b.LZ,
   b.loZ + f.z * b.LZ⟩

/-- Modelled from the spec: BoxGeometry Cartesian-to-fractional conversion,
the inverse of makeCoordinates. -/
def makeFraction (b : BoxDim) (v : Vec3) : Vec3 :=
  let fz := (v.z - b.loZ) / b.LZ
  let fy := (v.y - b.loY - b.yz * fz * b.LZ) / b.LY
  let fx := (v.x - b.loX - b.xy * fy * b.LY - b.xz * fz * b.LZ) / b.LX
  ⟨fx, fy, fz⟩

/-! ## Basic properties of the periodic wrap -/

theorem wrapFrac_eq_fract (x : ℚ) : wrapFrac x = Int.fract x := rfl

theorem wrapFrac_nonneg (x : ℚ) : 0 ≤ wrapFrac x := by
  rw [wrapFrac_eq_fract]; exact Int.fract_nonneg x

theorem wrapFrac_lt_one (x : ℚ) : wrapFrac x < 1 := by
  rw [wrapFrac_eq_fract]; exact Int.fract_lt_one x

theorem wrapFrac_eq_self {x : ℚ} (h0 : 0 ≤ x) (h1 : x < 1) : wrapFrac x = x := by
  rw [wrapFrac_eq_fract, Int.fract_eq_self.mpr ⟨h0, h1⟩]

/-! ## Sub-domain lookup on a strictly increasing boundary sequence -/

/-- On a strictly increasing list, if the entry at index i is at most x then
at least i+1 entries are at most x. -/
theorem succ_le_countP (x : ℚ) :
    ∀ (bs : List ℚ), bs.Pairwise (· < ·) →
      ∀ i, i < bs.length → bs.getD i 0 ≤ x →
        i + 1 ≤ bs.countP (fun b => decide (b ≤ x)) := by
  intro bs
  induction bs with
  | nil => intro _ i hi _; simp at hi
  | cons b bs ih =>
    intro hs i hi hle
    obtain ⟨hb, hs'⟩ := List.pairwise_cons.mp hs
    rw [List.countP_cons]
    cases i with
    | zero =>
      rw [List.getD_cons_zero] at hle
      have hbx : decide (b ≤ x) = true := by simpa using hle
      simp [hbx]
    | succ i =>
      rw [List.getD_cons_succ] at hle
      have hi' : i < bs.length := by simpa using hi
      have hIH := ih hs' i hi' hle
      have hmem : bs.getD i 0 ∈ bs := by
        rw [List.getD_eq_getElem _ _ hi']; exact List.getElem_mem _
      have hbx : decide (b ≤ x) = true := by
        simpa using le_of_lt (lt_of_lt_of_le (hb _ hmem) hle)
      simp only [hbx, if_pos]
      omega

/-- On a strictly increasing list, if x is below the entry at index i then
at most i entries are at most x. -/
theorem countP_le_of_lt (x : ℚ) :
    ∀ (bs : List ℚ), bs.Pairwise (· < ·) →
      ∀ i, i < bs.length → x < bs.getD i 0 →
        bs.countP (fun b => decide (b ≤ x)) ≤ i := by
  intro bs
  induction bs with
  | nil => intro _ i _ _; simp
  | cons b bs ih =>
    intro hs i hi hlt
    obtain ⟨hb, hs'⟩ := List.pairwise_cons.mp hs
    cases i with
    | zero =>
      rw [List.getD_cons_zero] at hlt
      have h0 : (b :: bs).countP (fun b => decide (b ≤ x)) = 0 := by
        rw [List.countP_eq_zero]
        intro a ha
        simp only [decide_eq_true_eq]
        rcases List.mem_cons.mp ha with rfl | ha'
        · exact not_le.mpr hlt
        · exact not_le.mpr (lt_trans hlt (hb _ ha'))
      omega
    | succ i =>
      rw [List.getD_cons_succ] at hlt
      have hi' : i < bs.length := by simpa using hi
      have hIH := ih hs' i hi' hlt
      rw [List.countP_cons]
      split <;> omega

theorem cumulativeFractions_length (cuts : List ℚ) :
    (cumulativeFractions cuts).length = cuts.length + 2 := by
  simp [cumulativeFractions]

theorem bnd_def (cuts : List ℚ) (i : ℕ) :
    bnd cuts i = (cumulativeFractions cuts).getD i 0 := rfl

theorem bnd_zero (cuts : List ℚ) : bnd cuts 0 = 0 := by
  simp [bnd, cumulativeFractions]

theorem bnd_last (cuts : List ℚ) : bnd cuts (cuts.length + 1) = 1 := by
  induction cuts with
  | nil => rfl
  | cons c cs ih =>
    simp only [bnd, cumulativeFractions, List.length_cons, List.cons_append,
      List.getD_cons_succ] at ih ⊢
    exact ih

/-- The cumulative fraction sequence of a cut sequence with a positive
minimum gap is strictly increasing. -/
theorem pairwise_of_gapOK {g : ℚ} (hg : 0 < g) {cuts : List ℚ} (h : gapOK g cuts) :
    (cumulativeFractions cuts).Pairwise (· < ·) := by
  have h' : (cumulativeFractions cuts).Chain' (· < ·) :=
    h.imp (fun {a b} hab => lt_of_lt_of_le (by linarith) hab)
  exact List.chain'_iff_pairwise.mp h'

theorem slabIndex_le (cuts : List ℚ) (x : ℚ) : slabIndex cuts x ≤ cuts.length :=
  Nat.min_le_left _ _

/-- Characterization of the sub-domain lookup: for a coordinate inside the
unit interval and a valid cut sequence, the lookup returns index i exactly
when the coordinate lies in the half-open slab between boundaries i and
i+1.  This is the no-gap no-overlap property of the decomposition. -/
theorem slabIndex_eq_iff {g : ℚ} (hg : 0 < g) {cuts : List ℚ} (hgap : gapOK g cuts)
    {x : ℚ} (hx0 : 0 ≤ x) (hx1 : x < 1) (i : ℕ) :
    slabIndex cuts x = i ↔ bnd cuts i ≤ x ∧ x < bnd cuts (i + 1) := by
  have hpw := pairwise_of_gapOK hg hgap
  have hlen := cumulativeFractions_length cuts
  have hc1 : 1 ≤ (cumulativeFractions cuts).countP (fun b => decide (b ≤ x)) := by
    apply succ_le_countP x _ hpw 0 (by omega)
    rw [← bnd_def, bnd_zero]; exact hx0
  have hc2 : (cumulativeFractions cuts).countP (fun b => decide (b ≤ x)) ≤
      cuts.length + 1 := by
    apply countP_le_of_lt x _ hpw (cuts.length + 1) (by omega)
    rw [← bnd_def, bnd_last]; exact hx1
  have hslab : slabIndex cuts x =
      (cumulativeFractions cuts).countP (fun b => decide (b ≤ x)) - 1 := by
    rw [slabIndex]; omega
  constructor
  · rintro rfl
    rw [hslab]
    constructor
    · by_contra hcon
      push_neg at hcon
      have := countP_le_of_lt x _ hpw _ (by omega) (bnd_def _ _ ▸ hcon)
      omega
    · by_contra hcon
      push_neg at hcon
      have := succ_le_countP x _ hpw _ (by omega) (bnd_def _ _ ▸ hcon)
      omega
  · rintro ⟨hlo, hhi⟩
    have hi2 : i + 1 < (cumulativeFractions cuts).length := by
      by_contra hcon
      push_neg at hcon
      rw [bnd_def, List.getD_eq_default _ _ (by omega)] at hhi
      linarith
    have hup := countP_le_of_lt x _ hpw (i + 1) hi2 (bnd_def _ _ ▸ hhi)
    have hlow := succ_le_countP x _ hpw i (by omega) (bnd_def _ _ ▸ hlo)
    omega

/-! ## Totality of the owner map -/

theorem linearIndex_lt {g : RankGrid} {i j k : ℕ}
    (hi : i < g.nx) (hj : j < g.ny) (hk : k < g.nz) :
    g.linearIndex i j k < g.size := by
  rw [RankGrid.linearIndex, RankGrid.size]
  calc (k * g.ny + j) * g.nx + i < (k * g.ny + j) * g.nx + g.nx := by omega
    _ = (k * g.ny + j + 1) * g.nx := by ring
    _ ≤ (g.ny * g.nz) * g.nx := by
        apply Nat.mul_le_mul_right
        calc k * g.ny + j + 1 ≤ k * g.ny + g.ny := by omega
          _ = (k + 1) * g.ny := by ring
          _ ≤ g.nz * g.ny := Nat.mul_le_mul_right _ (by omega)
          _ = g.ny * g.nz := Nat.mul_comm _ _
    _ = g.nx * (g.ny * g.nz) := by ring
    _ = g.nx * g.ny * g.nz := by ring

/-- With cut sequences of the right lengths, ownerOf always lands in the
valid rank range. -/
theorem ownerOf_lt {d : DomainDecomposition} (hsz : d.sizesOK) (f : Vec3) :
    d.ownerOf f < d.grid.size := by
  obtain ⟨hx, hy, hz⟩ := hsz
  apply linearIndex_lt
  · have := slabIndex_le d.cutsX f.x; omega
  · have := slabIndex_le d.cutsY f.y; omega
  · have := slabIndex_le d.cutsZ f.z; omega

/-! ## Migration conservation -/

/-- Sum of a function mapped over List.range equals the Finset.range sum. -/
theorem sum_map_range (f : ℕ → ℕ) : ∀ n, ((List.range n).map f).sum = ∑ r ∈ Finset.range n, f r := by
  intro n
  induction n with
  | zero => simp
  | succ n ih => rw [List.range_succ, Finset.sum_range_succ, ← ih]; simp

/-- Counting a particle after migration: the per-rank filters are pairwise
disjoint and complete, so every particle keeps its multiplicity. -/
theorem migrate_count (d : DomainDecomposition) (hsz : d.sizesOK)
    (stores : List (List Particle)) (p : Particle) :
    (migrateParticles d stores).flatten.count p = stores.flatten.count p := by
  simp only [migrateParticles]
  rw [List.count_flatten, List.map_map]
  have hcomp : (List.count p ∘ fun r =>
      (stores.flatten).filter (fun q => decide (d.ownerOf (wrapFrac3 q.pos) = r))) =
      fun r => if d.ownerOf (wrapFrac3 p.pos) = r
        then stores.flatten.count p else 0 := by
    funext r
    by_cases h : d.ownerOf (wrapFrac3 p.pos) = r
    · rw [if_pos h]
      exact List.count_filter (by simpa using h)
    · rw [if_neg h]
      simp only [Function.comp_apply]
      rw [List.count_eq_zero]
      intro hmem
      exact h (by simpa using (List.mem_filter.mp hmem).2)
  rw [hcomp, sum_map_range, Finset.sum_ite_eq, if_pos]
  simpa using ownerOf_lt hsz (wrapFrac3 p.pos)

/-- After migration the global particle list is a permutation of the one
before: no particle is duplicated or dropped. -/
theorem migrate_perm (d : DomainDecomposition) (hsz : d.sizesOK)
    (stores : List (List Particle)) :
    (migrateParticles d stores).flatten.Perm stores.flatten :=
  List.perm_iff_count.mpr (migrate_count d hsz stores)

/-- After migration, the store of rank r holds only particles whose wrapped
fractional position is owned by r. -/
theorem migrate_rank (d : DomainDecomposition) (stores : List (List Particle))
    (r : ℕ) (hr : r < d.grid.size) (p : Particle)
    (hp : p ∈ (migrateParticles d stores).getD r []) :
    d.ownerOf (wrapFrac3 p.pos) = r := by
  simp only [migrateParticles] at hp
  rw [List.getD_eq_getElem _ _ (by simpa using hr)] at hp
  simp only [List.getElem_map, List.getElem_range] at hp
  simpa using (List.mem_filter.mp hp).2

/-! ## Minimum-gap preservation by the balancing solver -/

/-- Summing the per-step gap bound along a chain from a to b. -/
theorem chain_sum {g : ℚ} : ∀ (l : List ℚ) (a b : ℚ),
    List.Chain' (fun u v => u + g ≤ v) (a :: l ++ [b]) →
      a + ((l.length : ℚ) + 1) * g ≤ b := by
  intro l
  induction l with
  | nil =>
    intro a b h
    have h1 := (List.chain'_cons.mp h).1
    push_cast [List.length_nil]
    linarith
  | cons c l ih =>
    intro a b h
    rw [List.cons_append] at h
    obtain ⟨h1, h2⟩ := List.chain'_cons.mp h
    have h3 := ih c b h2
    push_cast [List.length_cons, List.length_nil] at h3 ⊢
    linarith

/-- A valid cut sequence certifies feasibility of its own gap floor. -/
theorem gapOK_sum {g : ℚ} {cuts : List ℚ} (h : gapOK g cuts) :
    ((cuts.length : ℚ) + 1) * g ≤ 1 := by
  rw [gapOK, cumulativeFractions] at h
  have := chain_sum cuts 0 1 h
  linarith

theorem clampSeq_length (g : ℚ) : ∀ (cs : List ℚ) (prev : ℚ),
    (clampSeq g prev cs).length = cs.length := by
  intro cs
  induction cs with
  | nil => intro prev; rfl
  | cons c cs ih => intro prev; simp only [clampSeq, List.length_cons, ih]

/-- The clamped candidate sequence keeps every consecutive gap (the two
boundaries included) at or above the floor, given the floor is feasible. -/
theorem clampSeq_chain {g : ℚ} : ∀ (cs : List ℚ) (prev : ℚ),
    prev + ((cs.length : ℚ) + 1) * g ≤ 1 →
      List.Chain' (fun u v => u + g ≤ v) (prev :: clampSeq g prev cs ++ [1]) := by
  intro cs
  induction cs with
  | nil =>
    intro prev h
    simp only [clampSeq, List.nil_append]
    refine List.chain'_cons.mpr ⟨?_, List.chain'_singleton 1⟩
    push_cast [List.length_nil] at h
    linarith
  | cons c cs ih =>
    intro prev h
    have hfeas : prev + g ≤ 1 - ((cs.length : ℚ) + 1) * g := by
      push_cast [List.length_cons] at h
      linarith
    simp only [clampSeq]
    have h1 : prev + g ≤ max (prev + g) (min c (1 - ((cs.length : ℚ) + 1) * g)) :=
      le_max_left _ _
    have h2 : max (prev + g) (min c (1 - ((cs.length : ℚ) + 1) * g)) ≤
        1 - ((cs.length : ℚ) + 1) * g :=
      max_le hfeas (min_le_right _ _)
    have hrec := ih (max (prev + g) (min c (1 - ((cs.length : ℚ) + 1) * g)))
      (by linarith [h2])
    rw [List.cons_append]
    exact List.chain'_cons.mpr ⟨h1, hrec⟩

/-- A clamped candidate sequence starting at boundary 0 is a valid cut
sequence for the floor g. -/
theorem clampSeq_gapOK {g : ℚ} (cs : List ℚ)
    (h : ((cs.length : ℚ) + 1) * g ≤ 1) : gapOK g (clampSeq g 0 cs) := by
  rw [gapOK, cumulativeFractions]
  have := clampSeq_chain cs 0 (by linarith)
  simpa [clampSeq_length] using this

theorem targets_length (n : ℕ) (ps : List ℚ) : (targets n ps).length = n - 1 := by
  simp [targets]

/-- One solver adjustment always produces a gap-valid cut sequence. -/
theorem adjust_gapOK {g : ℚ} (m : ℕ) (ps : List ℚ)
    (h : ((m : ℚ) + 1) * g ≤ 1) : gapOK g (adjust g (m + 1) ps) := by
  rw [adjust]
  apply clampSeq_gapOK
  rw [targets_length]
  simpa using h

/-- Every cut sequence the bounded solver iteration can return is gap-valid,
as long as the starting state and the starting best are. -/
theorem solveLoop_gapOK {tol g : ℚ} {ps : List ℚ} :
    ∀ (it : ℕ) (cur best : List ℚ) (bm : ℕ), gapOK g cur → gapOK g best →
      gapOK g (solveLoop tol g ps it cur best bm).1 := by
  intro it
  induction it with
  | zero => intro cur best bm _ hb; exact hb
  | succ i ih =>
    intro cur best bm hc hb
    rw [solveLoop]
    by_cases hw : withinTol tol cur ps
    · rw [if_pos hw]; exact hc
    · rw [if_neg hw]
      have hnxt : gapOK g (adjust g (cur.length + 1) ps) :=
        adjust_gapOK cur.length ps (gapOK_sum hc)
      by_cases hm : maxCount (adjust g (cur.length + 1) ps) ps < bm
      · rw [if_pos hm]; exact ih _ _ _ hnxt hnxt
      · rw [if_neg hm]; exact ih _ _ _ hnxt hb

/-- The committed result of a full axis solve is gap-valid whenever the
previous cut sequence was. -/
theorem solveAxis_gapOK {tol g : ℚ} (mi : ℕ) (ps old : List ℚ)
    (h : gapOK g old) : gapOK g (solveAxis tol g mi ps old).1 :=
  solveLoop_gapOK mi old old (maxCount old ps) h h

/-- The decomposition state after an update call keeps every slab width at
or above the floor, on every axis, if the state before the call did. -/
theorem updateLB_gapOK (p : LBParams) (w : World)
    (hx : gapOK p.minGap w.decomp.cutsX) (hy : gapOK p.minGap w.decomp.cutsY)
    (hz : gapOK p.minGap w.decomp.cutsZ) :
    gapOK p.minGap (updateLB p w).decomp.cutsX ∧
    gapOK p.minGap (updateLB p w).decomp.cutsY ∧
    gapOK p.minGap (updateLB p w).decomp.cutsZ := by
  refine ⟨?_, ?_, ?_⟩ <;> simp only [updateLB] <;> split
  · exact solveAxis_gapOK _ _ _ hx
  · exact hx
  · exact solveAxis_gapOK _ _ _ hy
  · exact hy
  · exact solveAxis_gapOK _ _ _ hz
  · exact hz

/-- The clamp applied to each candidate is the projection onto the feasible
interval: among all feasible values it is nearest to the raw candidate. -/
theorem clampSeq_nearest {g : ℚ} (prev c y : ℚ) (cs : List ℚ)
    (hy1 : prev + g ≤ y) (hy2 : y ≤ 1 - ((cs.length : ℚ) + 1) * g) :
    |c - (clampSeq g prev (c :: cs)).headI| ≤ |c - y| := by
  have hiv : prev + g ≤ 1 - ((cs.length : ℚ) + 1) * g := le_trans hy1 hy2
  simp only [clampSeq, List.headI]
  rcases lt_or_le c (prev + g) with hA | hA
  · have hmin : min c (1 - ((cs.length : ℚ) + 1) * g) = c :=
      min_eq_left (le_trans (le_of_lt hA) hiv)
    have hmax : max (prev + g) (min c (1 - ((cs.length : ℚ) + 1) * g)) = prev + g := by
      rw [hmin]; exact max_eq_left (le_of_lt hA)
    rw [hmax, abs_of_nonpos (by linarith)]
    have := neg_abs_le (c - y)
    linarith
  · rcases le_or_lt c (1 - ((cs.length : ℚ) + 1) * g) with hB | hB
    · have hmin : min c (1 - ((cs.length : ℚ) + 1) * g) = c := min_eq_left hB
      have hmax : max (prev + g) (min c (1 - ((cs.length : ℚ) + 1) * g)) = c := by
        rw [hmin]; exact max_eq_right hA
      rw [hmax]
      simp only [sub_self, abs_zero]
      exact abs_nonneg (c - y)
    · have hmin : min c (1 - ((cs.length : ℚ) + 1) * g) =
          1 - ((cs.length : ℚ) + 1) * g := min_eq_right (le_of_lt hB)
      have hmax : max (prev + g) (min c (1 - ((cs.length : ℚ) + 1) * g)) =
          1 - ((cs.length : ℚ) + 1) * g := by
        rw [hmin]; exact max_eq_right hiv
      rw [hmax, abs_of_nonneg (by linarith)]
      have := le_abs_self (c - y)
      linarith

/-! ## Stepping lemmas for the bounded solver iteration -/

theorem solveLoop_done (tol g : ℚ) (ps cur best : List ℚ) (bm i : ℕ)
    (h : withinTol tol cur ps) :
    solveLoop tol g ps (i + 1) cur best bm = (cur, true) := by
  rw [solveLoop, if_pos h]

/-- An axis already within tolerance is returned unchanged, converged. -/
theorem solveAxis_already (tol g : ℚ) (ps old : List ℚ) (k : ℕ)
    (h : withinTol tol old ps) :
    solveAxis tol g (k + 1) ps old = (old, true) := by
  rw [solveAxis, solveLoop_done _ _ _ _ _ _ _ h]

/-- If one adjustment reaches tolerance, the solve converges on the second
iteration and commits the adjusted cuts. -/
theorem solveAxis_two_step (tol g : ℚ) (ps old : List ℚ) (k : ℕ)
    (h1 : ¬ withinTol tol old ps)
    (h2 : withinTol tol (adjust g (old.length + 1) ps) ps) :
    solveAxis tol g (k + 2) ps old = (adjust g (old.length + 1) ps, true) := by
  rw [solveAxis, solveLoop, if_neg h1]
  by_cases hm : maxCount (adjust g (old.length + 1) ps) ps < maxCount old ps
  · rw [if_pos hm, solveLoop_done _ _ _ _ _ _ _ h2]
  · rw [if_neg hm, solveLoop_done _ _ _ _ _ _ _ h2]

/-! ## Skew invariance of the fractional frame -/

/-- Converting a fractional position to Cartesian coordinates of any box
with non-degenerate edge lengths and back recovers the fractional position
exactly, whatever the tilt factors. -/
theorem makeFraction_makeCoordinates (b : BoxDim)
    (hx : b.LX ≠ 0) (hy : b.LY ≠ 0) (hz : b.LZ ≠ 0) (f : Vec3) :
    makeFraction b (makeCoordinates b f) = f := by
  obtain ⟨fx, fy, fz⟩ := f
  simp only [makeFraction, makeCoordinates, Vec3.mk.injEq]
  refine ⟨?_, ?_, ?_⟩ <;> field_simp <;> ring

/-! ## Concrete scenario: eight particles, one per octant, 2x2x2 grid

Fractional coordinates of the test positions (±0.25, ±0.75 components in a
cubic box of edge 2 centered at the origin): fraction = (coordinate + 1)/2.
-/

def basicParticles : List Particle :=
  [⟨0, ⟨5/8, 3/8, 5/8⟩⟩, ⟨1, ⟨5/8, 3/8, 7/8⟩⟩, ⟨2, ⟨5/8, 1/8, 5/8⟩⟩, ⟨3, ⟨5/8, 1/8, 7/8⟩⟩,
   ⟨4, ⟨7/8, 3/8, 5/8⟩⟩, ⟨5, ⟨7/8, 3/8, 7/8⟩⟩, ⟨6, ⟨7/8, 1/8, 5/8⟩⟩, ⟨7, ⟨7/8, 1/8, 7/8⟩⟩]

/-- The initial 2x2x2 decomposition with uniform cuts at one half. -/
def basicDecomp : DomainDecomposition := ⟨⟨2, 2, 2⟩, [1/2], [1/2], [1/2]⟩

/-- The test balancer configuration: default tolerance, two solver
iterations per call, a small minimum-gap floor, all axes enabled. -/
def basicParams : LBParams := ⟨21/20, 2, 1/100, true, true, true⟩

/-- All eight particles are owned by the rank of grid cell (1,0,1), the
octant with positive x, negative y, positive z. -/
def basicStores1 : List (List Particle) :=
  [[], [], [], [], [], basicParticles, [], []]

def basicDecomp2 : DomainDecomposition := ⟨⟨2, 2, 2⟩, [7/8], [3/8], [7/8]⟩

def basicStores2 : List (List Particle) :=
  [[⟨2, ⟨5/8, 1/8, 5/8⟩⟩], [⟨6, ⟨7/8, 1/8, 5/8⟩⟩], [⟨0, ⟨5/8, 3/8, 5/8⟩⟩],
   [⟨4, ⟨7/8, 3/8, 5/8⟩⟩], [⟨3, ⟨5/8, 1/8, 7/8⟩⟩], [⟨7, ⟨7/8, 1/8, 7/8⟩⟩],
   [⟨1, ⟨5/8, 3/8, 7/8⟩⟩], [⟨5, ⟨7/8, 3/8, 7/8⟩⟩]]

theorem basic_migrate1 :
    migrateParticles basicDecomp (basicParticles :: List.replicate 7 []) =
      basicStores1 := by
  norm_num [migrateParticles, basicDecomp, basicParticles, basicStores1,
    DomainDecomposition.ownerOf, RankGrid.linearIndex, RankGrid.size, slabIndex,
    cumulativeFractions, wrapFrac3, wrapFrac_eq_self, List.countP, List.countP.go,
    List.range_succ, List.filter]

theorem basic_step1 : updateLB basicParams ⟨basicDecomp, basicStores1⟩ =
    ⟨basicDecomp2, basicStores2⟩ := by
  have hpx : axisPs Vec3.x basicStores1 =
      [5/8, 5/8, 5/8, 5/8, 7/8, 7/8, 7/8, 7/8] := by
    norm_num [axisPs, basicStores1, basicParticles, wrapFrac_eq_self]
  have hpy : axisPs Vec3.y basicStores1 =
      [3/8, 3/8, 1/8, 1/8, 3/8, 3/8, 1/8, 1/8] := by
    norm_num [axisPs, basicStores1, basicParticles, wrapFrac_eq_self]
  have hpz : axisPs Vec3.z basicStores1 =
      [5/8, 7/8, 5/8, 7/8, 5/8, 7/8, 5/8, 7/8] := by
    norm_num [axisPs, basicStores1, basicParticles, wrapFrac_eq_self]
  have hnx : ¬ withinTol (21/20) [1/2] [5/8, 5/8, 5/8, 5/8, 7/8, 7/8, 7/8, 7/8] := by
    norm_num [withinTol, maxCount, slabCounts, slabIndex, cumulativeFractions,
      List.range_succ, List.countP, List.countP.go]
  have hax : adjust (1/100) (([1/2] : List ℚ).length + 1)
      [5/8, 5/8, 5/8, 5/8, 7/8, 7/8, 7/8, 7/8] = [7/8] := by
    norm_num [adjust, targets, sortAsc, insertAsc, clampSeq, List.range_succ,
      max_def, min_def]
  have hwx : withinTol (21/20) [7/8] [5/8, 5/8, 5/8, 5/8, 7/8, 7/8, 7/8, 7/8] := by
    norm_num [withinTol, maxCount, slabCounts, slabIndex, cumulativeFractions,
      List.range_succ, List.countP, List.countP.go]
  have hx : solveAxis (21/20) (1/100) 2
      [5/8, 5/8, 5/8, 5/8, 7/8, 7/8, 7/8, 7/8] [1/2] = ([7/8], true) := by
    rw [show (2:ℕ) = 0+2 from rfl]
    rw [solveAxis_two_step _ _ _ _ _ hnx (by rw [hax]; exact hwx), hax]
  have hny : ¬ withinTol (21/20) [1/2] [3/8, 3/8, 1/8, 1/8, 3/8, 3/8, 1/8, 1/8] := by
    norm_num [withinTol, maxCount, slabCounts, slabIndex, cumulativeFractions,
      List.range_succ, List.countP, List.countP.go]
  have hay : adjust (1/100) (([1/2] : List ℚ).length + 1)
      [3/8, 3/8, 1/8, 1/8, 3/8, 3/8, 1/8, 1/8] = [3/8] := by
    norm_num [adjust, targets, sortAsc, insertAsc, clampSeq, List.range_succ,
      max_def, min_def]
  have hwy : withinTol (21/20) [3/8] [3/8, 3/8, 1/8, 1/8, 3/8, 3/8, 1/8, 1/8] := by
    norm_num [withinTol, maxCount, slabCounts, slabIndex, cumulativeFractions,
      List.range_succ, List.countP, List.countP.go]
  have hy : solveAxis (21/20) (1/100) 2
      [3/8, 3/8, 1/8, 1/8, 3/8, 3/8, 1/8, 1/8] [1/2] = ([3/8], true) := by
    rw [show (2:ℕ) = 0+2 from rfl]
    rw [solveAxis_two_step _ _ _ _ _ hny (by rw [hay]; exact hwy), hay]
  have hnz : ¬ withinTol (21/20) [1/2] [5/8, 7/8, 5/8, 7/8, 5/8, 7/8, 5/8, 7/8] := by
    norm_num [withinTol, maxCount, slabCounts, slabIndex, cumulativeFractions,
      List.range_succ, List.countP, List.countP.go]
  have haz : adjust (1/100) (([1/2] : List ℚ).length + 1)
      [5/8, 7/8, 5/8, 7/8, 5/8, 7/8, 5/8, 7/8] = [7/8] := by
    norm_num [adjust, targets, sortAsc, insertAsc, clampSeq, List.range_succ,
      max_def, min_def]
  have hwz : withinTol (21/20) [7/8] [5/8, 7/8, 5/8, 7/8, 5/8, 7/8, 5/8, 7/8] := by
    norm_num [withinTol, maxCount, slabCounts, slabIndex, cumulativeFractions,
      List.range_succ, List.countP, List.countP.go]
  have hz : solveAxis (21/20) (1/100) 2
      [5/8, 7/8, 5/8, 7/8, 5/8, 7/8, 5/8, 7/8] [1/2] = ([7/8], true) := by
    rw [show (2:ℕ) = 0+2 from rfl]
    rw [solveAxis_two_step _ _ _ _ _ hnz (by rw [haz]; exact hwz), haz]
  simp only [updateLB, basicParams, basicDecomp, hpx, hpy, hpz]
  rw [hx, hy, hz]
  norm_num [migrateParticles, DomainDecomposition.ownerOf, RankGrid.linearIndex,
    RankGrid.size, slabIndex, cumulativeFractions, wrapFrac3, wrapFrac_eq_self,
    List.countP, List.countP.go, List.range_succ, List.filter, basicStores1,
    basicParticles, basicStores2, basicDecomp2]

theorem basic_step2 : updateLB basicParams ⟨basicDecomp2, basicStores2⟩ =
    ⟨basicDecomp2, basicStores2⟩ := by
  have hpx : axisPs Vec3.x basicStores2 =
      [5/8, 7/8, 5/8, 7/8, 5/8, 7/8, 5/8, 7/8] := by
    norm_num [axisPs, basicStores2, wrapFrac_eq_self]
  have hpy : axisPs Vec3.y basicStores2 =
      [1/8, 1/8, 3/8, 3/8, 1/8, 1/8, 3/8, 3/8] := by
    norm_num [axisPs, basicStores2, wrapFrac_eq_self]
  have hpz : axisPs Vec3.z basicStores2 =
      [5/8, 5/8, 5/8, 5/8, 7/8, 7/8, 7/8, 7/8] := by
    norm_num [axisPs, basicStores2, wrapFrac_eq_self]
  have hwx : withinTol (21/20) [7/8] [5/8, 7/8, 5/8, 7/8, 5/8, 7/8, 5/8, 7/8] := by
    norm_num [withinTol, maxCount, slabCounts, slabIndex, cumulativeFractions,
      List.range_succ, List.countP, List.countP.go]
  have hwy : withinTol (21/20) [3/8] [1/8, 1/8, 3/8, 3/8, 1/8, 1/8, 3/8, 3/8] := by
    norm_num [withinTol, maxCount, slabCounts, slabIndex, cumulativeFractions,
      List.range_succ, List.countP, List.countP.go]
  have hwz : withinTol (21/20) [7/8] [5/8, 5/8, 5/8, 5/8, 7/8, 7/8, 7/8, 7/8] := by
    norm_num [withinTol, maxCount, slabCounts, slabIndex, cumulativeFractions,
      List.range_succ, List.countP, List.countP.go]
  have hx : solveAxis (21/20) (1/100) 2
      [5/8, 7/8, 5/8, 7/8, 5/8, 7/8, 5/8, 7/8] [7/8] = ([7/8], true) := by
    rw [show (2:ℕ) = 1+1 from rfl, solveAxis_already _ _ _ _ _ hwx]
  have hy : solveAxis (21/20) (1/100) 2
      [1/8, 1/8, 3/8, 3/8, 1/8, 1/8, 3/8, 3/8] [3/8] = ([3/8], true) := by
    rw [show (2:ℕ) = 1+1 from rfl, solveAxis_already _ _ _ _ _ hwy]
  have hz : solveAxis (21/20) (1/100) 2
      [5/8, 5/8, 5/8, 5/8, 7/8, 7/8, 7/8, 7/8] [7/8] = ([7/8], true) := by
    rw [show (2:ℕ) = 1+1 from rfl, solveAxis_already _ _ _ _ _ hwz]
  simp only [updateLB, basicParams, basicDecomp2, hpx, hpy, hpz]
  rw [hx, hy, hz]
  norm_num [migrateParticles, DomainDecomposition.ownerOf, RankGrid.linearIndex,
    RankGrid.size, slabIndex, cumulativeFractions, wrapFrac3, wrapFrac_eq_self,
    List.countP, List.countP.go, List.range_succ, List.filter, basicStores2,
    basicDecomp2]

theorem basic_iterate : (updateLB basicParams)^[10] ⟨basicDecomp, basicStores1⟩ =
    ⟨basicDecomp2, basicStores2⟩ := by
  rw [show (10:ℕ) = 9+1 from rfl, Function.iterate_succ_apply, basic_step1,
    Function.iterate_fixed basic_step2 9]

/-- The fractional image of flipping the sign of every Cartesian coordinate
in a box centered at the origin: fraction f becomes 1 - f on each axis. -/
def flipP (p : Particle) : Particle := ⟨p.tag, ⟨1 - p.pos.x, 1 - p.pos.y, 1 - p.pos.z⟩⟩

/-- The flipped particles, still stored where they were before re-migration. -/
def basicFlipStores : List (List Particle) :=
  [[⟨2, ⟨3/8, 7/8, 3/8⟩⟩], [⟨6, ⟨1/8, 7/8, 3/8⟩⟩], [⟨0, ⟨3/8, 5/8, 3/8⟩⟩],
   [⟨4, ⟨1/8, 5/8, 3/8⟩⟩], [⟨3, ⟨3/8, 7/8, 1/8⟩⟩], [⟨7, ⟨1/8, 7/8, 1/8⟩⟩],
   [⟨1, ⟨3/8, 5/8, 1/8⟩⟩], [⟨5, ⟨1/8, 5/8, 1/8⟩⟩]]

/-- After re-migration every flipped particle is owned by grid cell (0,1,0),
the mirror of the octant all of them now occupy under the balanced cuts. -/
def basicStores3 : List (List Particle) :=
  [[], [],
   [⟨2, ⟨3/8, 7/8, 3/8⟩⟩, ⟨6, ⟨1/8, 7/8, 3/8⟩⟩, ⟨0, ⟨3/8, 5/8, 3/8⟩⟩,
    ⟨4, ⟨1/8, 5/8, 3/8⟩⟩, ⟨3, ⟨3/8, 7/8, 1/8⟩⟩, ⟨7, ⟨1/8, 7/8, 1/8⟩⟩,
    ⟨1, ⟨3/8, 5/8, 1/8⟩⟩, ⟨5, ⟨1/8, 5/8, 1/8⟩⟩],
   [], [], [], [], []]

def basicDecomp3 : DomainDecomposition := ⟨⟨2, 2, 2⟩, [3/8], [7/8], [3/8]⟩

def basicStores4 : List (List Particle) :=
  [[⟨5, ⟨1/8, 5/8, 1/8⟩⟩], [⟨1, ⟨3/8, 5/8, 1/8⟩⟩], [⟨7, ⟨1/8, 7/8, 1/8⟩⟩],
   [⟨3, ⟨3/8, 7/8, 1/8⟩⟩], [⟨4, ⟨1/8, 5/8, 3/8⟩⟩], [⟨0, ⟨3/8, 5/8, 3/8⟩⟩],
   [⟨6, ⟨1/8, 7/8, 3/8⟩⟩], [⟨2, ⟨3/8, 7/8, 3/8⟩⟩]]

theorem basic_flip : basicStores2.map (List.map flipP) = basicFlipStores := by
  norm_num [basicStores2, basicFlipStores, flipP]

theorem basic_migrate2 : migrateParticles basicDecomp2 basicFlipStores =
    basicStores3 := by
  norm_num [migrateParticles, basicDecomp2, basicFlipStores, basicStores3,
    DomainDecomposition.ownerOf, RankGrid.linearIndex, RankGrid.size, slabIndex,
    cumulativeFractions, wrapFrac3, wrapFrac_eq_self, List.countP, List.countP.go,
    List.range_succ, List.filter]

theorem basic_step3 : updateLB basicParams ⟨basicDecomp2, basicStores3⟩ =
    ⟨basicDecomp3, basicStores4⟩ := by
  have hpx : axisPs Vec3.x basicStores3 =
      [3/8, 1/8, 3/8, 1/8, 3/8, 1/8, 3/8, 1/8] := by
    norm_num [axisPs, basicStores3, wrapFrac_eq_self]
  have hpy : axisPs Vec3.y basicStores3 =
      [7/8, 7/8, 5/8, 5/8, 7/8, 7/8, 5/8, 5/8] := by
    norm_num [axisPs, basicStores3, wrapFrac_eq_self]
  have hpz : axisPs Vec3.z basicStores3 =
      [3/8, 3/8, 3/8, 3/8, 1/8, 1/8, 1/8, 1/8] := by
    norm_num [axisPs, basicStores3, wrapFrac_eq_self]
  have hnx : ¬ withinTol (21/20) [7/8] [3/8, 1/8, 3/8, 1/8, 3/8, 1/8, 3/8, 1/8] := by
    norm_num [withinTol, maxCount, slabCounts, slabIndex, cumulativeFractions,
      List.range_succ, List.countP, List.countP.go]
  have hax : adjust (1/100) (([7/8] : List ℚ).length + 1)
      [3/8, 1/8, 3/8, 1/8, 3/8, 1/8, 3/8, 1/8] = [3/8] := by
    norm_num [adjust, targets, sortAsc, insertAsc, clampSeq, List.range_succ,
      max_def, min_def]
  have hwx : withinTol (21/20) [3/8] [3/8, 1/8, 3/8, 1/8, 3/8, 1/8, 3/8, 1/8] := by
    norm_num [withinTol, maxCount, slabCounts, slabIndex, cumulativeFractions,
      List.range_succ, List.countP, List.countP.go]
  have hx : solveAxis (21/20) (1/100) 2
      [3/8, 1/8, 3/8, 1/8, 3/8, 1/8, 3/8, 1/8] [7/8] = ([3/8], true) := by
    rw [show (2:ℕ) = 0+2 from rfl]
    rw [solveAxis_two_step _ _ _ _ _ hnx (by rw [hax]; exact hwx), hax]
  have hny : ¬ withinTol (21/20) [3/8] [7/8, 7/8, 5/8, 5/8, 7/8, 7/8, 5/8, 5/8] := by
    norm_num [withinTol, maxCount, slabCounts, slabIndex, cumulativeFractions,
      List.range_succ, List.countP, List.countP.go]
  have hay : adjust (1/100) (([3/8] : List ℚ).length + 1)
      [7/8, 7/8, 5/8, 5/8, 7/8, 7/8, 5/8, 5/8] = [7/8] := by
    norm_num [adjust, targets, sortAsc, insertAsc, clampSeq, List.range_succ,
      max_def, min_def]
  have hwy : withinTol (21/20) [7/8] [7/8, 7/8, 5/8, 5/8, 7/8, 7/8, 5/8, 5/8] := by
    norm_num [withinTol, maxCount, slabCounts, slabIndex, cumulativeFractions,
      List.range_succ, List.countP, List.countP.go]
  have hy : solveAxis (21/20) (1/100) 2
      [7/8, 7/8, 5/8, 5/8, 7/8, 7/8, 5/8, 5/8] [3/8] = ([7/8], true) := by
    rw [show (2:ℕ) = 0+2 from rfl]
    rw [solveAxis_two_step _ _ _ _ _ hny (by rw [hay]; exact hwy), hay]
  have hnz : ¬ withinTol (21/20) [7/8] [3/8, 3/8, 3/8, 3/8, 1/8, 1/8, 1/8, 1/8] := by
    norm_num [withinTol, maxCount, slabCounts, slabIndex, cumulativeFractions,
      List.range_succ, List.countP, List.countP.go]
  have haz : adjust (1/100) (([7/8] : List ℚ).length + 1)
      [3/8, 3/8, 3/8, 3/8, 1/8, 1/8, 1/8, 1/8] = [3/8] := by
    norm_num [adjust, targets, sortAsc, insertAsc, clampSeq, List.range_succ,
      max_def, min_def]
  have hwz : withinTol (21/20) [3/8] [3/8, 3/8, 3/8, 3/8, 1/8, 1/8, 1/8, 1/8] := by
    norm_num [withinTol, maxCount, slabCounts, slabIndex, cumulativeFractions,
      List.range_succ, List.countP, List.countP.go]
  have hz : solveAxis (21/20) (1/100) 2
      [3/8, 3/8, 3/8, 3/8, 1/8, 1/8, 1/8, 1/8] [7/8] = ([3/8], true) := by
    rw [show (2:ℕ) = 0+2 from rfl]
    rw [solveAxis_two_step _ _ _ _ _ hnz (by rw [haz]; exact hwz), haz]
  simp only [updateLB, basicParams, basicDecomp2, hpx, hpy, hpz]
  rw [hx, hy, hz]
  norm_num [migrateParticles, DomainDecomposition.ownerOf, RankGrid.linearIndex,
    RankGrid.size, slabIndex, cumulativeFractions, wrapFrac3, wrapFrac_eq_self,
    List.countP, List.countP.go, List.range_succ, List.filter, basicStores3,
    basicStores4, basicDecomp3]

theorem basic_step4 : updateLB basicParams ⟨basicDecomp3, basicStores4⟩ =
    ⟨basicDecomp3, basicStores4⟩ := by
  have hpx : axisPs Vec3.x basicStores4 =
      [1/8, 3/8, 1/8, 3/8, 1/8, 3/8, 1/8, 3/8] := by
    norm_num [axisPs, basicStores4, wrapFrac_eq_self]
  have hpy : axisPs Vec3.y basicStores4 =
      [5/8, 5/8, 7/8, 7/8, 5/8, 5/8, 7/8, 7/8] := by
    norm_num [axisPs, basicStores4, wrapFrac_eq_self]
  have hpz : axisPs Vec3.z basicStores4 =
      [1/8, 1/8, 1/8, 1/8, 3/8, 3/8, 3/8, 3/8] := by
    norm_num [axisPs, basicStores4, wrapFrac_eq_self]
  have hwx : withinTol (21/20) [3/8] [1/8, 3/8, 1/8, 3/8, 1/8, 3/8, 1/8, 3/8] := by
    norm_num [withinTol, maxCount, slabCounts, slabIndex, cumulativeFractions,
      List.range_succ, List.countP, List.countP.go]
  have hwy : withinTol (21/20) [7/8] [5/8, 5/8, 7/8, 7/8, 5/8, 5/8, 7/8, 7/8] := by
    norm_num [withinTol, maxCount, slabCounts, slabIndex, cumulativeFractions,
      List.range_succ, List.countP, List.countP.go]
  have hwz : withinTol (21/20) [3/8] [1/8, 1/8, 1/8, 1/8, 3/8, 3/8, 3/8, 3/8] := by
    norm_num [withinTol, maxCount, slabCounts, slabIndex, cumulativeFractions,
      List.range_succ, List.countP, List.countP.go]
  have hx : solveAxis (21/20) (1/100) 2
      [1/8, 3/8, 1/8, 3/8, 1/8, 3/8, 1/8, 3/8] [3/8] = ([3/8], true) := by
    rw [show (2:ℕ) = 1+1 from rfl, solveAxis_already _ _ _ _ _ hwx]
  have hy : solveAxis (21/20) (1/100) 2
      [5/8, 5/8, 7/8, 7/8, 5/8, 5/8, 7/8, 7/8] [7/8] = ([7/8], true) := by
    rw [show (2:ℕ) = 1+1 from rfl, solveAxis_already _ _ _ _ _ hwy]
  have hz : solveAxis (21/20) (1/100) 2
      [1/8, 1/8, 1/8, 1/8, 3/8, 3/8, 3/8, 3/8] [3/8] = ([3/8], true) := by
    rw [show (2:ℕ) = 1+1 from rfl, solveAxis_already _ _ _ _ _ hwz]
  simp only [updateLB, basicParams, basicDecomp3, hpx, hpy, hpz]
  rw [hx, hy, hz]
  norm_num [migrateParticles, DomainDecomposition.ownerOf, RankGrid.linearIndex,
    RankGrid.size, slabIndex, cumulativeFractions, wrapFrac3, wrapFrac_eq_self,
    List.countP, List.countP.go, List.range_succ, List.filter, basicStores4,
    basicDecomp3]

theorem basic_iterate2 :
    (updateLB basicParams)^[10] ⟨basicDecomp2, basicStores3⟩ =
      ⟨basicDecomp3, basicStores4⟩ := by
  rw [show (10:ℕ) = 9+1 from rfl, Function.iterate_succ_apply, basic_step3,
    Function.iterate_fixed basic_step4 9]

/-! ## Concrete scenario: 1x2x4 grid, z-axis balancing first

Fractional coordinates of the test positions in the cubic box of edge 2:
(0.1,-0.1,-0.4) becomes (0.55, 0.45, 0.3) and so on. -/

def multiParticles : List Particle :=
  [⟨0, ⟨11/20, 9/20, 3/10⟩⟩, ⟨1, ⟨11/20, 2/5, 3/10⟩⟩, ⟨2, ⟨11/20, 9/20, 3/5⟩⟩,
   ⟨3, ⟨11/20, 2/5, 3/5⟩⟩, ⟨4, ⟨3/5, 9/20, 31/40⟩⟩, ⟨5, ⟨3/5, 2/5, 31/40⟩⟩,
   ⟨6, ⟨3/5, 9/20, 19/20⟩⟩, ⟨7, ⟨3/5, 2/5, 19/20⟩⟩]

def multiDecomp : DomainDecomposition := ⟨⟨1, 2, 4⟩, [], [1/2], [1/4, 1/2, 3/4]⟩

/-- First configuration: y-axis balancing disabled, z (and x) enabled. -/
def multiParamsA : LBParams := ⟨21/20, 100, 1/100, true, false, true⟩

/-- Second configuration: y-axis balancing re-enabled. -/
def multiParamsB : LBParams := ⟨21/20, 100, 1/100, true, true, true⟩

def multiStores1 : List (List Particle) :=
  [[], [], [⟨0, ⟨11/20, 9/20, 3/10⟩⟩, ⟨1, ⟨11/20, 2/5, 3/10⟩⟩], [],
   [⟨2, ⟨11/20, 9/20, 3/5⟩⟩, ⟨3, ⟨11/20, 2/5, 3/5⟩⟩], [],
   [⟨4, ⟨3/5, 9/20, 31/40⟩⟩, ⟨5, ⟨3/5, 2/5, 31/40⟩⟩, ⟨6, ⟨3/5, 9/20, 19/20⟩⟩,
    ⟨7, ⟨3/5, 2/5, 19/20⟩⟩], []]

def multiDecomp2 : DomainDecomposition := ⟨⟨1, 2, 4⟩, [], [1/2], [3/5, 31/40, 19/20]⟩

def multiStores2 : List (List Particle) :=
  [[⟨0, ⟨11/20, 9/20, 3/10⟩⟩, ⟨1, ⟨11/20, 2/5, 3/10⟩⟩], [],
   [⟨2, ⟨11/20, 9/20, 3/5⟩⟩, ⟨3, ⟨11/20, 2/5, 3/5⟩⟩], [],
   [⟨4, ⟨3/5, 9/20, 31/40⟩⟩, ⟨5, ⟨3/5, 2/5, 31/40⟩⟩], [],
   [⟨6, ⟨3/5, 9/20, 19/20⟩⟩, ⟨7, ⟨3/5, 2/5, 19/20⟩⟩], []]

def multiDecomp3 : DomainDecomposition := ⟨⟨1, 2, 4⟩, [], [9/20], [3/5, 31/40, 19/20]⟩

def multiStores3 : List (List Particle) :=
  [[⟨1, ⟨11/20, 2/5, 3/10⟩⟩], [⟨0, ⟨11/20, 9/20, 3/10⟩⟩],
   [⟨3, ⟨11/20, 2/5, 3/5⟩⟩], [⟨2, ⟨11/20, 9/20, 3/5⟩⟩],
   [⟨5, ⟨3/5, 2/5, 31/40⟩⟩], [⟨4, ⟨3/5, 9/20, 31/40⟩⟩],
   [⟨7, ⟨3/5, 2/5, 19/20⟩⟩], [⟨6, ⟨3/5, 9/20, 19/20⟩⟩]]

theorem multi_migrate1 :
    migrateParticles multiDecomp (multiParticles :: List.replicate 7 []) =
      multiStores1 := by
  norm_num [migrateParticles, multiDecomp, multiParticles, multiStores1,
    DomainDecomposition.ownerOf, RankGrid.linearIndex, RankGrid.size, slabIndex,
    cumulativeFractions, wrapFrac3, wrapFrac_eq_self, List.countP, List.countP.go,
    List.range_succ, List.filter]

theorem multi_step1 : updateLB multiParamsA ⟨multiDecomp, multiStores1⟩ =
    ⟨multiDecomp2, multiStores2⟩ := by
  have hpx : axisPs Vec3.x multiStores1 =
      [11/20, 11/20, 11/20, 11/20, 3/5, 3/5, 3/5, 3/5] := by
    norm_num [axisPs, multiStores1, wrapFrac_eq_self]
  have hpz : axisPs Vec3.z multiStores1 =
      [3/10, 3/10, 3/5, 3/5, 31/40, 31/40, 19/20, 19/20] := by
    norm_num [axisPs, multiStores1, wrapFrac_eq_self]
  have hwx : withinTol (21/20) ([] : List ℚ)
      [11/20, 11/20, 11/20, 11/20, 3/5, 3/5, 3/5, 3/5] := by
    norm_num [withinTol, maxCount, slabCounts, slabIndex, cumulativeFractions,
      List.range_succ, List.countP, List.countP.go]
  have hx : solveAxis (21/20) (1/100) 100
      [11/20, 11/20, 11/20, 11/20, 3/5, 3/5, 3/5, 3/5] ([] : List ℚ) =
      (([] : List ℚ), true) := by
    rw [show (100:ℕ) = 99+1 from rfl, solveAxis_already _ _ _ _ _ hwx]
  have hnz : ¬ withinTol (21/20) [1/4, 1/2, 3/4]
      [3/10, 3/10, 3/5, 3/5, 31/40, 31/40, 19/20, 19/20] := by
    norm_num [withinTol, maxCount, slabCounts, slabIndex, cumulativeFractions,
      List.range_succ, List.countP, List.countP.go]
  have haz : adjust (1/100) (([1/4, 1/2, 3/4] : List ℚ).length + 1)
      [3/10, 3/10, 3/5, 3/5, 31/40, 31/40, 19/20, 19/20] =
      [3/5, 31/40, 19/20] := by
    norm_num [adjust, targets, sortAsc, insertAsc, clampSeq, List.range_succ,
      max_def, min_def]
  have hwz : withinTol (21/20) [3/5, 31/40, 19/20]
      [3/10, 3/10, 3/5, 3/5, 31/40, 31/40, 19/20, 19/20] := by
    norm_num [withinTol, maxCount, slabCounts, slabIndex, cumulativeFractions,
      List.range_succ, List.countP, List.countP.go]
  have hz : solveAxis (21/20) (1/100) 100
      [3/10, 3/10, 3/5, 3/5, 31/40, 31/40, 19/20, 19/20] [1/4, 1/2, 3/4] =
      ([3/5, 31/40, 19/20], true) := by
    rw [show (100:ℕ) = 98+2 from rfl]
    rw [solveAxis_two_step _ _ _ _ _ hnz (by rw [haz]; exact hwz), haz]
  simp only [updateLB, multiParamsA, multiDecomp, hpx, hpz]
  rw [hx, hz]
  norm_num [migrateParticles, DomainDecomposition.ownerOf, RankGrid.linearIndex,
    RankGrid.size, slabIndex, cumulativeFractions, wrapFrac3, wrapFrac_eq_self,
    List.countP, List.countP.go, List.range_succ, List.filter, multiStores1,
    multiStores2, multiDecomp2]

theorem multi_step2 : updateLB multiParamsB ⟨multiDecomp2, multiStores2⟩ =
    ⟨multiDecomp3, multiStores3⟩ := by
  have hpx : axisPs Vec3.x multiStores2 =
      [11/20, 11/20, 11/20, 11/20, 3/5, 3/5, 3/5, 3/5] := by
    norm_num [axisPs, multiStores2, wrapFrac_eq_self]
  have hpy : axisPs Vec3.y multiStores2 =
      [9/20, 2/5, 9/20, 2/5, 9/20, 2/5, 9/20, 2/5] := by
    norm_num [axisPs, multiStores2, wrapFrac_eq_self]
  have hpz : axisPs Vec3.z multiStores2 =
      [3/10, 3/10, 3/5, 3/5, 31/40, 31/40, 19/20, 19/20] := by
    norm_num [axisPs, multiStores2, wrapFrac_eq_self]
  have hwx : withinTol (21/20) ([] : List ℚ)
      [11/20, 11/20, 11/20, 11/20, 3/5, 3/5, 3/5, 3/5] := by
    norm_num [withinTol, maxCount, slabCounts, slabIndex, cumulativeFractions,
      List.range_succ, List.countP, List.countP.go]
  have hx : solveAxis (21/20) (1/100) 100
      [11/20, 11/20, 11/20, 11/20, 3/5, 3/5, 3/5, 3/5] ([] : List ℚ) =
      (([] : List ℚ), true) := by
    rw [show (100:ℕ) = 99+1 from rfl, solveAxis_already _ _ _ _ _ hwx]
  have hny : ¬ withinTol (21/20) [1/2]
      [9/20, 2/5, 9/20, 2/5, 9/20, 2/5, 9/20, 2/5] := by
    norm_num [withinTol, maxCount, slabCounts, slabIndex, cumulativeFractions,
      List.range_succ, List.countP, List.countP.go]
  have hay : adjust (1/100) (([1/2] : List ℚ).length + 1)
      [9/20, 2/5, 9/20, 2/5, 9/20, 2/5, 9/20, 2/5] = [9/20] := by
    norm_num [adjust, targets, sortAsc, insertAsc, clampSeq, List.range_succ,
      max_def, min_def]
  have hwy : withinTol (21/20) [9/20]
      [9/20, 2/5, 9/20, 2/5, 9/20, 2/5, 9/20, 2/5] := by
    norm_num [withinTol, maxCount, slabCounts, slabIndex, cumulativeFractions,
      List.range_succ, List.countP, List.countP.go]
  have hy : solveAxis (21/20) (1/100) 100
      [9/20, 2/5, 9/20, 2/5, 9/20, 2/5, 9/20, 2/5] [1/2] = ([9/20], true) := by
    rw [show (100:ℕ) = 98+2 from rfl]
    rw [solveAxis_two_step _ _ _ _ _ hny (by rw [hay]; exact hwy), hay]
  have hwz : withinTol (21/20) [3/5, 31/40, 19/20]
      [3/10, 3/10, 3/5, 3/5, 31/40, 31/40, 19/20, 19/20] := by
    norm_num [withinTol, maxCount, slabCounts, slabIndex, cumulativeFractions,
      List.range_succ, List.countP, List.countP.go]
  have hz : solveAxis (21/20) (1/100) 100
      [3/10, 3/10, 3/5, 3/5, 31/40, 31/40, 19/20, 19/20] [3/5, 31/40, 19/20] =
      ([3/5, 31/40, 19/20], true) := by
    rw [show (100:ℕ) = 99+1 from rfl, solveAxis_already _ _ _ _ _ hwz]
  simp only [updateLB, multiParamsB, multiDecomp2, hpx, hpy, hpz]
  rw [hx, hy, hz]
  norm_num [migrateParticles, DomainDecomposition.ownerOf, RankGrid.linearIndex,
    RankGrid.size, slabIndex, cumulativeFractions, wrapFrac3, wrapFrac_eq_self,
    List.countP, List.countP.go, List.range_succ, List.filter, multiStores2,
    multiStores3, multiDecomp3]

/-! ## Claim theorems -/

/-- Claim C1: for every particle set and every sequence of position updates,
after migrateParticles the total particle count summed across all ranks
equals the count before the call — the global particle list is a
permutation of the old one, so no particle is duplicated or dropped — and
every particle's owning rank after the call equals ownerOf applied to the
particle's periodically wrapped fractional position. -/
theorem C1_migration_conservation (d : DomainDecomposition) (hsz : d.sizesOK)
    (stores : List (List Particle)) :
    (migrateParticles d stores).flatten.Perm stores.flatten ∧
    (migrateParticles d stores).flatten.length = stores.flatten.length ∧
    ∀ r, r < d.grid.size → ∀ p ∈ (migrateParticles d stores).getD r [],
      d.ownerOf (wrapFrac3 p.pos) = r :=
  ⟨migrate_perm d hsz stores, (migrate_perm d hsz stores).length_eq,
   fun r hr p hp => migrate_rank d stores r hr p hp⟩

theorem C1_witness :
    (⟨⟨2, 1, 1⟩, [1/2], [], []⟩ : DomainDecomposition).sizesOK ∧
    ((migrateParticles ⟨⟨2, 1, 1⟩, [1/2], [], []⟩
        [[⟨0, ⟨1/4, 0, 0⟩⟩, ⟨1, ⟨3/4, 0, 0⟩⟩]]).flatten.Perm
      ([[⟨0, ⟨1/4, 0, 0⟩⟩, ⟨1, ⟨3/4, 0, 0⟩⟩]] : List (List Particle)).flatten ∧
    (migrateParticles ⟨⟨2, 1, 1⟩, [1/2], [], []⟩
        [[⟨0, ⟨1/4, 0, 0⟩⟩, ⟨1, ⟨3/4, 0, 0⟩⟩]]).flatten.length =
      ([[⟨0, ⟨1/4, 0, 0⟩⟩, ⟨1, ⟨3/4, 0, 0⟩⟩]] : List (List Particle)).flatten.length ∧
    ∀ r, r < (⟨⟨2, 1, 1⟩, [1/2], [], []⟩ : DomainDecomposition).grid.size →
      ∀ p ∈ (migrateParticles ⟨⟨2, 1, 1⟩, [1/2], [], []⟩
          [[⟨0, ⟨1/4, 0, 0⟩⟩, ⟨1, ⟨3/4, 0, 0⟩⟩]]).getD r [],
        (⟨⟨2, 1, 1⟩, [1/2], [], []⟩ : DomainDecomposition).ownerOf
          (wrapFrac3 p.pos) = r) :=
  ⟨by decide, C1_migration_conservation _ (by decide) _⟩

/-- Claim C2: for every fractional position in the unit cube and every
valid cut-fraction configuration, ownerOf returns exactly one rank id in
the valid range, the per-axis sub-domains have no gaps and no overlaps
(each coordinate lies in exactly one slab, the one the lookup returns), and
the function is deterministic: identical sequences and identical input give
the same rank. -/
theorem C2_ownership_totality (d : DomainDecomposition) (g : ℚ) (hg : 0 < g)
    (hsz : d.sizesOK) (hgx : gapOK g d.cutsX) (hgy : gapOK g d.cutsY)
    (hgz : gapOK g d.cutsZ) (f : Vec3)
    (hx0 : 0 ≤ f.x) (hx1 : f.x < 1) (hy0 : 0 ≤ f.y) (hy1 : f.y < 1)
    (hz0 : 0 ≤ f.z) (hz1 : f.z < 1) :
    d.ownerOf f < d.grid.size ∧
    (bnd d.cutsX (slabIndex d.cutsX f.x) ≤ f.x ∧
      f.x < bnd d.cutsX (slabIndex d.cutsX f.x + 1) ∧
      ∀ i, bnd d.cutsX i ≤ f.x → f.x < bnd d.cutsX (i + 1) →
        i = slabIndex d.cutsX f.x) ∧
    (bnd d.cutsY (slabIndex d.cutsY f.y) ≤ f.y ∧
      f.y < bnd d.cutsY (slabIndex d.cutsY f.y + 1) ∧
      ∀ i, bnd d.cutsY i ≤ f.y → f.y < bnd d.cutsY (i + 1) →
        i = slabIndex d.cutsY f.y) ∧
    (bnd d.cutsZ (slabIndex d.cutsZ f.z) ≤ f.z ∧
      f.z < bnd d.cutsZ (slabIndex d.cutsZ f.z + 1) ∧
      ∀ i, bnd d.cutsZ i ≤ f.z → f.z < bnd d.cutsZ (i + 1) →
        i = slabIndex d.cutsZ f.z) ∧
    (∀ d' : DomainDecomposition, d'.grid = d.grid → d'.cutsX = d.cutsX →
      d'.cutsY = d.cutsY → d'.cutsZ = d.cutsZ → d'.ownerOf f = d.ownerOf f) := by
  refine ⟨ownerOf_lt hsz f, ?_, ?_, ?_, ?_⟩
  · obtain ⟨h1, h2⟩ := (slabIndex_eq_iff hg hgx hx0 hx1 _).mp rfl
    exact ⟨h1, h2, fun i hlo hhi =>
      ((slabIndex_eq_iff hg hgx hx0 hx1 i).mpr ⟨hlo, hhi⟩).symm⟩
  · obtain ⟨h1, h2⟩ := (slabIndex_eq_iff hg hgy hy0 hy1 _).mp rfl
    exact ⟨h1, h2, fun i hlo hhi =>
      ((slabIndex_eq_iff hg hgy hy0 hy1 i).mpr ⟨hlo, hhi⟩).symm⟩
  · obtain ⟨h1, h2⟩ := (slabIndex_eq_iff hg hgz hz0 hz1 _).mp rfl
    exact ⟨h1, h2, fun i hlo hhi =>
      ((slabIndex_eq_iff hg hgz hz0 hz1 i).mpr ⟨hlo, hhi⟩).symm⟩
  · intro d' h1 h2 h3 h4
    rw [DomainDecomposition.ownerOf, DomainDecomposition.ownerOf, h1, h2, h3, h4]

theorem C2_witness :
    (0 < (1/4 : ℚ) ∧ gapOK (1/4) basicDecomp.cutsX) ∧
    (basicDecomp.ownerOf ⟨1/4, 1/4, 1/4⟩ < basicDecomp.grid.size ∧
     (bnd basicDecomp.cutsX (slabIndex basicDecomp.cutsX (1/4)) ≤ (1/4 : ℚ) ∧
       (1/4 : ℚ) < bnd basicDecomp.cutsX (slabIndex basicDecomp.cutsX (1/4) + 1) ∧
       ∀ i, bnd basicDecomp.cutsX i ≤ (1/4 : ℚ) →
         (1/4 : ℚ) < bnd basicDecomp.cutsX (i + 1) →
           i = slabIndex basicDecomp.cutsX (1/4)) ∧
     (bnd basicDecomp.cutsY (slabIndex basicDecomp.cutsY (1/4)) ≤ (1/4 : ℚ) ∧
       (1/4 : ℚ) < bnd basicDecomp.cutsY (slabIndex basicDecomp.cutsY (1/4) + 1) ∧
       ∀ i, bnd basicDecomp.cutsY i ≤ (1/4 : ℚ) →
         (1/4 : ℚ) < bnd basicDecomp.cutsY (i + 1) →
           i = slabIndex basicDecomp.cutsY (1/4)) ∧
     (bnd basicDecomp.cutsZ (slabIndex basicDecomp.cutsZ (1/4)) ≤ (1/4 : ℚ) ∧
       (1/4 : ℚ) < bnd basicDecomp.cutsZ (slabIndex basicDecomp.cutsZ (1/4) + 1) ∧
       ∀ i, bnd basicDecomp.cutsZ i ≤ (1/4 : ℚ) →
         (1/4 : ℚ) < bnd basicDecomp.cutsZ (i + 1) →
           i = slabIndex basicDecomp.cutsZ (1/4)) ∧
     (∀ d' : DomainDecomposition, d'.grid = basicDecomp.grid →
       d'.cutsX = basicDecomp.cutsX → d'.cutsY = basicDecomp.cutsY →
       d'.cutsZ = basicDecomp.cutsZ →
         d'.ownerOf ⟨1/4, 1/4, 1/4⟩ = basicDecomp.ownerOf ⟨1/4, 1/4, 1/4⟩)) :=
  ⟨⟨by norm_num, by norm_num [gapOK, cumulativeFractions, basicDecomp]⟩,
   C2_ownership_totality basicDecomp (1/4) (by norm_num) (by decide)
     (by norm_num [gapOK, cumulativeFractions, basicDecomp])
     (by norm_num [gapOK, cumulativeFractions, basicDecomp])
     (by norm_num [gapOK, cumulativeFractions, basicDecomp])
     ⟨1/4, 1/4, 1/4⟩ (by norm_num) (by norm_num) (by norm_num) (by norm_num)
     (by norm_num) (by norm_num)⟩

/-- Claim C3: every cut-fraction configuration the balancer commits via an
update call keeps each slab width at or above the minimum-width floor
(boundaries included), on every axis, provided the state before the call
satisfied the floor; and a candidate cut is clamped to the nearest feasible
value rather than rejected — the committed cut is the projection of the raw
candidate onto the feasible interval. -/
theorem C3_min_gap_enforcement (p : LBParams) (w : World)
    (hx : gapOK p.minGap w.decomp.cutsX) (hy : gapOK p.minGap w.decomp.cutsY)
    (hz : gapOK p.minGap w.decomp.cutsZ) :
    (gapOK p.minGap (updateLB p w).decomp.cutsX ∧
     gapOK p.minGap (updateLB p w).decomp.cutsY ∧
     gapOK p.minGap (updateLB p w).decomp.cutsZ) ∧
    (∀ prev c y : ℚ, ∀ rest : List ℚ,
      prev + p.minGap ≤ y → y ≤ 1 - ((rest.length : ℚ) + 1) * p.minGap →
        |c - (clampSeq p.minGap prev (c :: rest)).headI| ≤ |c - y|) :=
  ⟨updateLB_gapOK p w hx hy hz,
   fun prev c y rest h1 h2 => clampSeq_nearest prev c y rest h1 h2⟩

theorem C3_witness :
    (gapOK basicParams.minGap basicDecomp.cutsX ∧
     gapOK basicParams.minGap basicDecomp.cutsY ∧
     gapOK basicParams.minGap basicDecomp.cutsZ) ∧
    ((gapOK basicParams.minGap
        (updateLB basicParams ⟨basicDecomp, basicStores1⟩).decomp.cutsX ∧
      gapOK basicParams.minGap
        (updateLB basicParams ⟨basicDecomp, basicStores1⟩).decomp.cutsY ∧
      gapOK basicParams.minGap
        (updateLB basicParams ⟨basicDecomp, basicStores1⟩).decomp.cutsZ) ∧
     (∀ prev c y : ℚ, ∀ rest : List ℚ,
       prev + basicParams.minGap ≤ y →
       y ≤ 1 - ((rest.length : ℚ) + 1) * basicParams.minGap →
         |c - (clampSeq basicParams.minGap prev (c :: rest)).headI| ≤ |c - y|)) :=
  ⟨⟨by norm_num [gapOK, cumulativeFractions, basicDecomp, basicParams],
    by norm_num [gapOK, cumulativeFractions, basicDecomp, basicParams],
    by norm_num [gapOK, cumulativeFractions, basicDecomp, basicParams]⟩,
   C3_min_gap_enforcement basicParams ⟨basicDecomp, basicStores1⟩
     (by norm_num [gapOK, cumulativeFractions, basicDecomp, basicParams])
     (by norm_num [gapOK, cumulativeFractions, basicDecomp, basicParams])
     (by norm_num [gapOK, cumulativeFractions, basicDecomp, basicParams])⟩

/-- Claim C6: an update call with an axis disabled leaves that axis's
cut-fraction sequence identical before and after the call — the disabled
axis is skipped entirely, whatever happens to the other axes. -/
theorem C6_disabled_axis_frame (p : LBParams) (w : World) :
    (p.enableX = false → (updateLB p w).decomp.cutsX = w.decomp.cutsX) ∧
    (p.enableY = false → (updateLB p w).decomp.cutsY = w.decomp.cutsY) ∧
    (p.enableZ = false → (updateLB p w).decomp.cutsZ = w.decomp.cutsZ) := by
  refine ⟨?_, ?_, ?_⟩ <;> intro h <;> simp [updateLB, h]

theorem C6_witness :
    multiParamsA.enableY = false ∧
    (updateLB multiParamsA ⟨multiDecomp, multiStores1⟩).decomp.cutsY =
      (⟨multiDecomp, multiStores1⟩ : World).decomp.cutsY :=
  ⟨rfl, (C6_disabled_axis_frame multiParamsA ⟨multiDecomp, multiStores1⟩).2.1 rfl⟩

/-- Claim C7: for every update call and every enabled axis whose tolerance
is not met after maxIterations solver iterations, the best cut-fraction
sequence achieved so far (the first component of the solve) is still
committed to the decomposition for that axis; the update is a total
function, so non-convergence never aborts the run and never reverts the
decomposition on failure. -/
theorem C7_best_effort_commit (p : LBParams) (w : World) :
    (p.enableX = true →
      (solveAxis p.tol p.minGap p.maxIter (axisPs Vec3.x w.stores)
        w.decomp.cutsX).2 = false →
      (updateLB p w).decomp.cutsX =
        (solveAxis p.tol p.minGap p.maxIter (axisPs Vec3.x w.stores)
          w.decomp.cutsX).1) ∧
    (p.enableY = true →
      (solveAxis p.tol p.minGap p.maxIter (axisPs Vec3.y w.stores)
        w.decomp.cutsY).2 = false →
      (updateLB p w).decomp.cutsY =
        (solveAxis p.tol p.minGap p.maxIter (axisPs Vec3.y w.stores)
          w.decomp.cutsY).1) ∧
    (p.enableZ = true →
      (solveAxis p.tol p.minGap p.maxIter (axisPs Vec3.z w.stores)
        w.decomp.cutsZ).2 = false →
      (updateLB p w).decomp.cutsZ =
        (solveAxis p.tol p.minGap p.maxIter (axisPs Vec3.z w.stores)
          w.decomp.cutsZ).1) := by
  refine ⟨?_, ?_, ?_⟩ <;> intro h _ <;> simp [updateLB, h]

theorem C7_witness :
    ((⟨1, 0, 1/100, true, true, true⟩ : LBParams).enableX = true ∧
     (⟨1, 0, 1/100, true, true, true⟩ : LBParams).enableY = true ∧
     (⟨1, 0, 1/100, true, true, true⟩ : LBParams).enableZ = true) ∧
    ((solveAxis (1 : ℚ) (1/100) 0 (axisPs Vec3.x multiStores1)
        multiDecomp.cutsX).2 = false ∧
     (solveAxis (1 : ℚ) (1/100) 0 (axisPs Vec3.y multiStores1)
        multiDecomp.cutsY).2 = false ∧
     (solveAxis (1 : ℚ) (1/100) 0 (axisPs Vec3.z multiStores1)
        multiDecomp.cutsZ).2 = false) ∧
    (updateLB ⟨1, 0, 1/100, true, true, true⟩
        ⟨multiDecomp, multiStores1⟩).decomp.cutsX =
      (solveAxis (1 : ℚ) (1/100) 0 (axisPs Vec3.x multiStores1)
        multiDecomp.cutsX).1 ∧
    (updateLB ⟨1, 0, 1/100, true, true, true⟩
        ⟨multiDecomp, multiStores1⟩).decomp.cutsY =
      (solveAxis (1 : ℚ) (1/100) 0 (axisPs Vec3.y multiStores1)
        multiDecomp.cutsY).1 ∧
    (updateLB ⟨1, 0, 1/100, true, true, true⟩
        ⟨multiDecomp, multiStores1⟩).decomp.cutsZ =
      (solveAxis (1 : ℚ) (1/100) 0 (axisPs Vec3.z multiStores1)
        multiDecomp.cutsZ).1 :=
  ⟨⟨rfl, rfl, rfl⟩, ⟨rfl, rfl, rfl⟩,
   (C7_best_effort_commit ⟨1, 0, 1/100, true, true, true⟩
     ⟨multiDecomp, multiStores1⟩).1 rfl rfl,
   (C7_best_effort_commit ⟨1, 0, 1/100, true, true, true⟩
     ⟨multiDecomp, multiStores1⟩).2.1 rfl rfl,
   (C7_best_effort_commit ⟨1, 0, 1/100, true, true, true⟩
     ⟨multiDecomp, multiStores1⟩).2.2 rfl rfl⟩

/-- Claim C8: the owner computed for a particle depends only on its
box-fractional coordinates and the cut sequences — converting a fractional
position to Cartesian form in any box (cubic or triclinic with any skew)
and back before lookup yields the same owning rank as in any other box, so
ownership outcomes are invariant under box skew. -/
theorem C8_skew_invariance (d : DomainDecomposition) (b0 b1 : BoxDim)
    (h0x : b0.LX ≠ 0) (h0y : b0.LY ≠ 0) (h0z : b0.LZ ≠ 0)
    (h1x : b1.LX ≠ 0) (h1y : b1.LY ≠ 0) (h1z : b1.LZ ≠ 0) (f : Vec3) :
    d.ownerOf (makeFraction b1 (makeCoordinates b1 f)) =
      d.ownerOf (makeFraction b0 (makeCoordinates b0 f)) ∧
    makeFraction b1 (makeCoordinates b1 f) = f := by
  rw [makeFraction_makeCoordinates b0 h0x h0y h0z,
      makeFraction_makeCoordinates b1 h1x h1y h1z]
  exact ⟨rfl, rfl⟩

theorem C8_witness :
    ((⟨-1, -1, -1, 2, 2, 2, 0, 0, 0⟩ : BoxDim).LX ≠ 0 ∧
     (⟨-1/2, -1/2, -1/2, 1, 1, 1, 1/10, 1/5, 3/10⟩ : BoxDim).LX ≠ 0) ∧
    (basicDecomp.ownerOf
        (makeFraction ⟨-1/2, -1/2, -1/2, 1, 1, 1, 1/10, 1/5, 3/10⟩
          (makeCoordinates ⟨-1/2, -1/2, -1/2, 1, 1, 1, 1/10, 1/5, 3/10⟩
            ⟨5/8, 3/8, 5/8⟩)) =
      basicDecomp.ownerOf
        (makeFraction ⟨-1, -1, -1, 2, 2, 2, 0, 0, 0⟩
          (makeCoordinates ⟨-1, -1, -1, 2, 2, 2, 0, 0, 0⟩ ⟨5/8, 3/8, 5/8⟩)) ∧
     makeFraction ⟨-1/2, -1/2, -1/2, 1, 1, 1, 1/10, 1/5, 3/10⟩
       (makeCoordinates ⟨-1/2, -1/2, -1/2, 1, 1, 1, 1/10, 1/5, 3/10⟩
         ⟨5/8, 3/8, 5/8⟩) = ⟨5/8, 3/8, 5/8⟩) :=
  ⟨⟨by norm_num, by norm_num⟩,
   C8_skew_invariance basicDecomp ⟨-1, -1, -1, 2, 2, 2, 0, 0, 0⟩
     ⟨-1/2, -1/2, -1/2, 1, 1, 1, 1/10, 1/5, 3/10⟩ (by norm_num) (by norm_num)
     (by norm_num) (by norm_num) (by norm_num) (by norm_num) ⟨5/8, 3/8, 5/8⟩⟩

/-- Claim C9: for an axis with n sub-domains, the cumulative fraction
sequence has length n+1, starts with the boundary fraction 0, ends with the
boundary fraction 1, and is strictly increasing throughout, the n-1
interior cuts included. -/
theorem C9_cumulative_fractions (cuts : List ℚ) (n : ℕ) (g : ℚ) (hg : 0 < g)
    (hlen : cuts.length + 1 = n) (hgap : gapOK g cuts) :
    (cumulativeFractions cuts).length = n + 1 ∧
    (cumulativeFractions cuts).head? = some 0 ∧
    (cumulativeFractions cuts).getLast? = some 1 ∧
    (cumulativeFractions cuts).Pairwise (· < ·) := by
  refine ⟨?_, rfl, ?_, pairwise_of_gapOK hg hgap⟩
  · rw [cumulativeFractions_length]; omega
  · show ((0 :: cuts) ++ [1] : List ℚ).getLast? = some 1
    exact List.getLast?_concat _

theorem C9_witness :
    (0 < (1/4 : ℚ) ∧ ([1/2] : List ℚ).length + 1 = 2 ∧ gapOK (1/4) [1/2]) ∧
    ((cumulativeFractions [1/2]).length = 2 + 1 ∧
     (cumulativeFractions [1/2]).head? = some 0 ∧
     (cumulativeFractions [1/2]).getLast? = some 1 ∧
     (cumulativeFractions [1/2]).Pairwise (· < ·)) :=
  ⟨⟨by norm_num, by decide, by norm_num [gapOK, cumulativeFractions]⟩,
   C9_cumulative_fractions [1/2] 2 (1/4) (by norm_num) (by decide)
     (by norm_num [gapOK, cumulativeFractions])⟩

/-- Claim C4: in the eight-particle octant scenario (one particle per
octant pattern of a cubic box, initial 2x2x2 grid, no skew), after
migrateParticles every particle is owned by the rank of grid cell (1,0,1)
— the octant all of them occupy; after 10 balancing iterations with default
tolerance every rank owns exactly one particle, with the ownership
assignment of the test (tag 0 at cell (0,1,0), tag 1 at (0,1,1), tag 2 at
(0,0,0), tag 3 at (0,0,1), tag 4 at (1,1,0), tag 5 at (1,1,1), tag 6 at
(1,0,0), tag 7 at (1,0,1)); after flipping all particle coordinate signs,
re-migrating and re-balancing, every rank again owns exactly one particle
and the tag assignment is the mirror image through the origin (the reverse
of the linear rank order). -/
theorem C4_octant_scenario :
    migrateParticles basicDecomp (basicParticles :: List.replicate 7 []) =
      basicStores1 ∧
    basicStores1.getD (basicDecomp.grid.linearIndex 1 0 1) [] = basicParticles ∧
    (updateLB basicParams)^[10] ⟨basicDecomp, basicStores1⟩ =
      ⟨basicDecomp2, basicStores2⟩ ∧
    basicStores2.map List.length = List.replicate 8 1 ∧
    (basicStores2.getD (basicDecomp2.grid.linearIndex 0 1 0) []).map Particle.tag = [0] ∧
    (basicStores2.getD (basicDecomp2.grid.linearIndex 0 1 1) []).map Particle.tag = [1] ∧
    (basicStores2.getD (basicDecomp2.grid.linearIndex 0 0 0) []).map Particle.tag = [2] ∧
    (basicStores2.getD (basicDecomp2.grid.linearIndex 0 0 1) []).map Particle.tag = [3] ∧
    (basicStores2.getD (basicDecomp2.grid.linearIndex 1 1 0) []).map Particle.tag = [4] ∧
    (basicStores2.getD (basicDecomp2.grid.linearIndex 1 1 1) []).map Particle.tag = [5] ∧
    (basicStores2.getD (basicDecomp2.grid.linearIndex 1 0 0) []).map Particle.tag = [6] ∧
    (basicStores2.getD (basicDecomp2.grid.linearIndex 1 0 1) []).map Particle.tag = [7] ∧
    basicStores2.map (List.map flipP) = basicFlipStores ∧
    migrateParticles basicDecomp2 basicFlipStores = basicStores3 ∧
    (updateLB basicParams)^[10] ⟨basicDecomp2, basicStores3⟩ =
      ⟨basicDecomp3, basicStores4⟩ ∧
    basicStores4.map List.length = List.replicate 8 1 ∧
    (basicStores4.getD (basicDecomp3.grid.linearIndex 1 0 1) []).map Particle.tag = [0] ∧
    (basicStores4.getD (basicDecomp3.grid.linearIndex 1 0 0) []).map Particle.tag = [1] ∧
    (basicStores4.getD (basicDecomp3.grid.linearIndex 1 1 1) []).map Particle.tag = [2] ∧
    (basicStores4.getD (basicDecomp3.grid.linearIndex 1 1 0) []).map Particle.tag = [3] ∧
    (basicStores4.getD (basicDecomp3.grid.linearIndex 0 0 1) []).map Particle.tag = [4] ∧
    (basicStores4.getD (basicDecomp3.grid.linearIndex 0 0 0) []).map Particle.tag = [5] ∧
    (basicStores4.getD (basicDecomp3.grid.linearIndex 0 1 1) []).map Particle.tag = [6] ∧
    (basicStores4.getD (basicDecomp3.grid.linearIndex 0 1 0) []).map Particle.tag = [7] ∧
    basicStores4.map (List.map Particle.tag) =
      (basicStores2.map (List.map Particle.tag)).reverse := by
  refine ⟨basic_migrate1, rfl, basic_iterate, by decide, ?_, ?_, ?_, ?_,
    ?_, ?_, ?_, ?_, basic_flip, basic_migrate2, basic_iterate2, by decide, ?_,
    ?_, ?_, ?_, ?_, ?_, ?_, ?_, by decide⟩ <;> decide

/-- Claim C5 counterexample: the claim asserts the committed z cuts split
the eight particles roughly 2/2/4 across the z slabs after the first update
of the 1x2x4 scenario; in fact the measured per-slab split along z is
exactly 2/2/2/2 — no z slab holds 4 (or roughly 4) particles. -/
theorem C5_counterexample :
    slabCounts (updateLB multiParamsA ⟨multiDecomp, multiStores1⟩).decomp.cutsZ
      (axisPs Vec3.z (updateLB multiParamsA ⟨multiDecomp, multiStores1⟩).stores) =
      [2, 2, 2, 2] ∧
    4 ∉ slabCounts (updateLB multiParamsA ⟨multiDecomp, multiStores1⟩).decomp.cutsZ
      (axisPs Vec3.z (updateLB multiParamsA ⟨multiDecomp, multiStores1⟩).stores) := by
  have hcounts : slabCounts multiDecomp2.cutsZ (axisPs Vec3.z multiStores2) =
      [2, 2, 2, 2] := by
    norm_num [slabCounts, axisPs, multiStores2, multiDecomp2, wrapFrac_eq_self,
      slabIndex, cumulativeFractions, List.range_succ, List.countP, List.countP.go]
  rw [multi_step1]
  refine ⟨hcounts, ?_⟩
  rw [hcounts]
  decide

/-- Claim C5 (amended): in the 1x2x4 scenario with eight particles
clustered at four z heights and balancing enabled only on z, one update
commits z cut fractions inside the observed ranges — above 3/10 and at most
3/5, above 3/5 and at most 31/40, above 31/40 and at most 19/20 — which
split the particles evenly 2/2/2/2 across the four z slabs while the y cut
stays at 1/2 (two particles on each rank of the lower y half, none on the
upper); after y balancing is also enabled, a further update moves the y cut
into the range above 2/5 and at most 9/20 and every rank owns exactly one
particle. -/
theorem C5_multi_scenario :
    migrateParticles multiDecomp (multiParticles :: List.replicate 7 []) =
      multiStores1 ∧
    updateLB multiParamsA ⟨multiDecomp, multiStores1⟩ =
      ⟨multiDecomp2, multiStores2⟩ ∧
    multiDecomp2.cutsY = [1/2] ∧
    (3/10 < multiDecomp2.cutsZ.getD 0 0 ∧ multiDecomp2.cutsZ.getD 0 0 ≤ 3/5) ∧
    (3/5 < multiDecomp2.cutsZ.getD 1 0 ∧ multiDecomp2.cutsZ.getD 1 0 ≤ 31/40) ∧
    (31/40 < multiDecomp2.cutsZ.getD 2 0 ∧ multiDecomp2.cutsZ.getD 2 0 ≤ 19/20) ∧
    slabCounts multiDecomp2.cutsZ (axisPs Vec3.z multiStores2) = [2, 2, 2, 2] ∧
    multiStores2.map List.length = [2, 0, 2, 0, 2, 0, 2, 0] ∧
    updateLB multiParamsB ⟨multiDecomp2, multiStores2⟩ =
      ⟨multiDecomp3, multiStores3⟩ ∧
    (2/5 < multiDecomp3.cutsY.getD 0 0 ∧ multiDecomp3.cutsY.getD 0 0 ≤ 9/20) ∧
    multiStores3.map List.length = List.replicate 8 1 ∧
    multiStores3.map (List.map Particle.tag) =
      [[1], [0], [3], [2], [5], [4], [7], [6]] := by
  refine ⟨multi_migrate1, multi_step1, rfl, ?_, ?_, ?_, ?_, by decide,
    multi_step2, ?_, by decide, by decide⟩
  · constructor <;> norm_num [multiDecomp2]
  · constructor <;> norm_num [multiDecomp2]
  · constructor <;> norm_num [multiDecomp2]
  · norm_num [slabCounts, axisPs, multiStores2, multiDecomp2, wrapFrac_eq_self,
      slabIndex, cumulativeFractions, List.range_succ, List.countP, List.countP.go]
  · constructor <;> norm_num [multiDecomp3]

end HoomdLB
